import Mathlib

/-!
# Verification of the json-api request pipeline

Shallow embedding, in Lean 4, of the request-processing pipeline of the
json-api repository: the pagination-enforcing query dispatcher
(`src/steps/run-query.ts`), the hook invoker (`src/steps/trigger-hook.js`),
the label-resolution step (`src/steps/pre-query/label-to-ids.js`), and the
pipeline orchestrator (`APIController.handle` and
`APIController.responseFromExternalError`).

JavaScript promises are modelled by the three-valued `POut` type
(pending / rejected / resolved); thrown JavaScript values by `Thrown`
(a single value or an array of values, mirroring the `Array.isArray`
normalization in the controller's catch block); and the externally
supplied collaborators (hooks, backend adapters, parser steps) by
explicit environment records whose fields give each step's settled
outcome.
-/

namespace JsonApi

/-- HTTP method of a request. The pipeline supports get/post/patch/delete;
anything else is carried as `other`. -/
inductive Method where
  | get
  | post
  | patch
  | delete
  | other (name : String)
deriving DecidableEq, Repr

/-- A JavaScript id-or-ids value: `undefined`, `null`, a single id string, or
an array of id strings.  This is the domain of `request.idOrIds` and of the
values label mappers resolve with. -/
inductive IdOrIds where
  | undef
  | null
  | one (id : String)
  | many (ids : List String)
deriving DecidableEq, Repr

/-- JavaScript truthiness of an id-or-ids value: `undefined`/`null` are falsy,
a string is truthy unless empty, an array is always truthy. -/
def IdOrIds.truthy : IdOrIds → Bool
  | .undef => false
  | .null => false
  | .one s => s ≠ ""
  | .many _ => true

/-- The test `mappedLabel === null || mappedLabel === undefined ||
(Array.isArray(mappedLabel) && !mappedLabel.length)` from
`APIController.handle`. -/
def IdOrIds.isEmptyIsh : IdOrIds → Bool
  | .null => true
  | .undef => true
  | .many [] => true
  | _ => false

/-- A resource: type plus optional identifier (attributes are irrelevant to
the verified properties and omitted). -/
structure Resource where
  type : String
  id : Option String := none
deriving DecidableEq, Repr

/-- The `primary` slot of a response: JavaScript `null`, a single Resource, or
a Collection of resources.  (`undefined` is represented by wrapping in
`Option`.) -/
inductive Primary where
  | nullP
  | res (r : Resource)
  | coll (rs : List Resource)
deriving DecidableEq, Repr

/-- The typed error value of the library: HTTP status, application code,
title, detail and a source parameter locator. -/
structure APIError where
  status : Nat
  code : Option Nat := none
  title : Option String := none
  detail : Option String := none
  sourceParameter : Option String := none
deriving DecidableEq, Repr

/-- A thrown/rejected JavaScript value: either already an `APIError` or some
other arbitrary value (identified here by a numeric tag). -/
inductive JSErr where
  | api (e : APIError)
  | otherErr (tag : Nat)
deriving DecidableEq, Repr

/-- A thrown JavaScript value may be a single error or an array of errors;
the controller's catch block normalizes with `Array.isArray`. -/
inductive Thrown where
  | one (e : JSErr)
  | many (es : List JSErr)
deriving DecidableEq, Repr

/-- The `Array.isArray(errors) ? errors : [errors]` normalization. -/
def Thrown.toList : Thrown → List JSErr
  | .one e => [e]
  | .many es => es

/-- Modelled from the spec: `APIError.fromError` (the Error Model's
"conversion from arbitrary failures", `src/types/APIError.js`, not under
`src/`): an `APIError` passes through unchanged; any other thrown value is
normalized to a generic 500 error. -/
def APIError.fromError : JSErr → APIError
  | .api e => e
  | .otherErr _ => { status := 500, title := some "An unknown error occurred while trying to process this request." }

/-- The settled-or-not outcome of a JavaScript promise: forever pending,
rejected with a reason, or resolved with a value. -/
inductive POut (α : Type) where
  | pending
  | rejected (reason : Thrown)
  | resolved (value : α)
deriving DecidableEq, Repr

/-- A JavaScript value as returned by a user-supplied hook: enough structure
to distinguish the empty-array result from everything else. -/
inductive JSVal where
  | undefined
  | null
  | arr (elems : List JSVal)
  | str (s : String)
  | num (n : Int)
  | res (r : Resource)
deriving Repr

/-! ## Query dispatcher (`src/steps/run-query.ts`) -/

/-- The tag of a `Query` variant. -/
inductive QueryKind where
  | find
  | create
  | update
  | delete
  | addToRelationship
  | removeFromRelationship
deriving DecidableEq, Repr

/-- Filter/sort/pagination criteria of a criteria-carrying query; only the
fields read by `run-query.ts` are modelled. -/
structure Criteria where
  limit : Option Nat := none
  offset : Option Nat := none
deriving DecidableEq, Repr

/-- A query: variant tag, resource type, optional id, criteria, and the flag
that bypasses the maximum-limit policy.  The class hierarchy of
`src/types/Query/*` (not under `src/`) is flattened into a tag plus fields;
`instanceof WithCriteriaQuery` becomes `RQuery.isWithCriteria`. -/
structure RQuery where
  kind : QueryKind
  type : String
  id : Option String := none
  criteria : Criteria := {}
  ignoreLimitMax : Bool := false
deriving DecidableEq, Repr

/-- The `limit` getter of `WithCriteriaQuery`: reads `criteria.limit`. -/
def RQuery.limit (q : RQuery) : Option Nat := q.criteria.limit

/-- The `withLimit` method of `WithCriteriaQuery`: copy of the query with the
criteria's limit replaced. -/
def RQuery.withLimit (q : RQuery) (l : Nat) : RQuery :=
  { q with criteria := { q.criteria with limit := some l } }

/-- Modelled from the spec: which query variants are `WithCriteriaQuery`
instances (the Query class files are not under `src/`).  The spec's
"WithCriteria is a capability shared by Find and relationship-listing
variants"; only the Find variant matters to the verified claims, and the
enforcement code in `run-query.ts` is variant-agnostic. -/
def RQuery.isWithCriteria (q : RQuery) : Bool := q.kind = .find

/-- Pagination configuration of a resource type in the registry. -/
structure Pagination where
  defaultPageSize : Option Nat := none
  maxPageSize : Option Nat := none
deriving DecidableEq, Repr

/-- A backend adapter instance: one optional operation per query variant,
each taking the finalized query.  `ρ` is the adapter's (opaque) result
type. -/
structure AdapterInstance (ρ : Type) where
  find : Option (RQuery → ρ) := none
  create : Option (RQuery → ρ) := none
  update : Option (RQuery → ρ) := none
  delete : Option (RQuery → ρ) := none
  addToRelationship : Option (RQuery → ρ) := none
  removeFromRelationship : Option (RQuery → ρ) := none

/-- The slice of `ResourceTypeRegistry` consumed by `runQuery`. -/
structure RQRegistry (ρ : Type) where
  pagination : String → Pagination
  dbAdapter : String → Option (AdapterInstance ρ)

/-- The way `runQuery` can fail: a thrown `APIError` (from
`invalidQueryParamValue`), the `new Error("Unexpected query type.")` throw in
`dispatchQuery`, or the TypeError that the violated non-null assertion on
`registry.dbAdapter` would produce. -/
inductive RunQueryError where
  | apiError (e : APIError)
  | unexpectedQueryType
  | adapterMissing
deriving DecidableEq, Repr

/-- Modelled from the spec: `invalidQueryParamValue` from `src/util/errors`
(not under `src/`): an InvalidQueryParameter-class error carrying the given
detail and source parameter. -/
def invalidQueryParamValue (detail : String) (parameter : String) : APIError :=
  { status := 400
    title := some "Invalid Query Parameter Value"
    detail := some detail
    sourceParameter := some parameter }

/-- `enforceMaxLimit` from `run-query.ts`: for the query's type, if the
override flag is unset, a maximum page size is configured, a limit was
requested, and the requested limit exceeds the maximum, throw an
invalid-query-parameter error naming `page[limit]`. -/
def enforceMaxLimit {ρ : Type} (registry : RQRegistry ρ) (q : RQuery) : Except APIError Unit :=
  let maxPageSize := (registry.pagination q.type).maxPageSize
  if q.ignoreLimitMax = false then
    match maxPageSize, q.criteria.limit with
    | some m, some l =>
      if l > m then
        .error (invalidQueryParamValue "Must use a smaller limit per page." "page[limit]")
      else .ok ()
    | _, _ => .ok ()
  else .ok ()

/-- `applyDefaultLimit` from `run-query.ts`: if no limit was requested and a
default page size is configured, rewrite the query to carry the default. -/
def applyDefaultLimit {ρ : Type} (registry : RQRegistry ρ) (q : RQuery) : RQuery :=
  match q.limit, (registry.pagination q.type).defaultPageSize with
  | none, some d => q.withLimit d
  | _, _ => q

/-- The adapter operation selected by the `instanceof` chain in
`dispatchQuery`. -/
def AdapterInstance.methodFor {ρ : Type} (a : AdapterInstance ρ) : QueryKind → Option (RQuery → ρ)
  | .create => a.create
  | .find => a.find
  | .delete => a.delete
  | .update => a.update
  | .addToRelationship => a.addToRelationship
  | .removeFromRelationship => a.removeFromRelationship

/-- `dispatchQuery` from `run-query.ts`: select the adapter operation
matching the query's variant; if the adapter does not expose it, throw
`Unexpected query type.`; otherwise invoke it with the query. -/
def dispatchQuery {ρ : Type} (adapter : AdapterInstance ρ) (q : RQuery) : Except RunQueryError ρ :=
  match adapter.methodFor q.kind with
  | none => .error .unexpectedQueryType
  | some m => .ok (m q)

/-- The query `runQuery` finalizes for dispatch: criteria-carrying queries
get the default limit applied, others pass through. -/
def finalizeQuery {ρ : Type} (registry : RQRegistry ρ) (q : RQuery) : RQuery :=
  if q.isWithCriteria then applyDefaultLimit registry q else q

/-- `runQuery` from `run-query.ts`: for a criteria-carrying query first
enforce the maximum limit and apply the default limit, then look up the
type's backend adapter and dispatch. -/
def runQuery {ρ : Type} (registry : RQRegistry ρ) (query : RQuery) : Except RunQueryError ρ :=
  match (if query.isWithCriteria then enforceMaxLimit registry query else .ok ()) with
  | .error e => .error (.apiError e)
  | .ok _ =>
    let finalizedQuery := finalizeQuery registry query
    match registry.dbAdapter finalizedQuery.type with
    | none => .error .adapterMissing
    | some adapter => dispatchQuery adapter finalizedQuery

/-! ## Label resolution (`src/steps/pre-query/label-to-ids.js`, compiled build) -/

/-- Behaviour of a user-supplied label mapper when invoked with the model and
framework request: it may throw synchronously, or return a value/promise whose
settled state is a `POut`. -/
inductive MapperBeh where
  | syncThrow (t : Thrown)
  | result (p : POut IdOrIds)

/-- The slice of the registry consumed by `labelToIds`: whether the
`registry.adapter(type)` / `adapter.getModel(...)` lookups succeed, and the
per-type label-mapper table (`registry.labelMappers(type)`, an object mapping
a label string to a mapper function or `undefined`). -/
structure LabelCfg where
  adapterOk : Bool := true
  labelMappers : String → Option (String → Option MapperBeh) := fun _ => none

/-- The rejection reason of the TypeError raised when the adapter/model
lookup inside the `Q.Promise` executor crashes. -/
def typeErrorReason : Thrown := .one (.otherErr 1)

/-- `labelToIds` from `build/src/steps/pre-query/label-to-ids.js`: inside a
`Q.Promise` executor, look up the label mapper for the given label string.
If the executor itself throws (adapter lookup crash, or the mapper throwing
synchronously), the promise rejects.  If the mapper is found and returns a
promise, the code runs `Q(labelMapper(model, frameworkReq)).then(resolve)` —
with no rejection handler — so a *rejected* mapper result is swallowed and
the outer promise stays pending forever.  If no mapper matches, the label
string is passed through unchanged as if it were a literal id. -/
def labelToIds (type : String) (labelOrId : IdOrIds) (cfg : LabelCfg) : POut IdOrIds :=
  if cfg.adapterOk = false then .rejected typeErrorReason
  else
    match labelOrId with
    | .one label =>
      match cfg.labelMappers type with
      | none => .resolved (.one label)
      | some mappers =>
        match mappers label with
        | none => .resolved (.one label)
        | some (.syncThrow t) => .rejected t
        | some (.result (.resolved v)) => .resolved v
        | some (.result (.rejected _)) => .pending
        | some (.result .pending) => .pending
    | _ => .resolved labelOrId

/-! ## Hook invoker (`src/steps/trigger-hook.js`) -/

/-- Behaviour of a user-supplied hook function on a given invocation: a
synchronous throw, or a returned value/promise with the given settled
state.  A plain (non-promise) return value `v` is `returns (.resolved v)`,
matching the flattening done by `Promise.resolve`. -/
inductive HookBeh where
  | throws (t : Thrown)
  | returns (p : POut JSVal)

/-- The hook-lookup slice of the registry: `registry[hook](type)` yields the
registered hook function or `undefined`.  `φ` and `ψ` are the opaque
framework request/response handle types. -/
structure HookRegistry (φ ψ : Type) where
  lookup : String → String → Option (Resource → φ → ψ → HookBeh)

/-- What invoking `trigger-hook` yields: either the call itself throws
synchronously (an uncaught throw inside the hook, before any promise
exists), or it returns a promise with the given settled state. -/
inductive HookOutcome where
  | syncThrow (t : Thrown)
  | promise (p : POut JSVal)

/-- The default export of `src/steps/trigger-hook.js`: look up
`registry[hook](resource.type)`; if no function is registered return
`Promise.resolve([])`; otherwise return `Promise.resolve(fn(resource,
frameworkReq, frameworkRes))` (so the hook's own promise is flattened, and a
synchronous throw in the hook escapes the call). -/
def triggerHook {φ ψ : Type} (resource : Resource) (hook : String)
    (registry : HookRegistry φ ψ) (frameworkReq : φ) (frameworkRes : ψ) : HookOutcome :=
  match registry.lookup hook resource.type with
  | none => .promise (.resolved (.arr []))
  | some fn =>
    match fn resource frameworkReq frameworkRes with
    | .throws t => .syncThrow t
    | .returns p => .promise p

/-! ## The pipeline orchestrator (`APIController`) -/

/-- The JSON:API media type. -/
def jsonApiMediaType : String := "application/vnd.api+json"

/-- An inbound request, as consumed by `APIController.handle`.  `primary` is
the slot progressively filled in by the pre-query pipeline. -/
structure Request where
  method : Method
  type : String
  idOrIds : IdOrIds := .undef
  aboutRelationship : Bool := false
  allowLabel : Bool := false
  hasBody : Bool := false
  accepts : List String := []
  uri : Option String := none
  primary : Option Primary := none

/-- The response header map; only `vary` is ever written by the modelled
code. -/
structure Headers where
  vary : Option String := none
deriving DecidableEq, Repr

/-- A serialized response body: either the error document
`new Document(response.errors).get(true)` or the success document
`new Document(primary, included, undefined, urlTemplates, request.uri)
.get(true)` (URL templates are opaque to the verified properties and
omitted). -/
inductive Body where
  | errorDoc (errors : List APIError)
  | dataDoc (primary : Option Primary) (included : Option (List Resource)) (uri : Option String)
deriving DecidableEq, Repr

/-- A response under construction; all fields start `undefined`/empty as in
`new Response()`. -/
structure Response where
  contentType : Option String := none
  headers : Headers := {}
  status : Option Nat := none
  primary : Option Primary := none
  included : Option (List Resource) := none
  errors : List APIError := []
  body : Option Body := none
deriving DecidableEq, Repr

/-- `pickStatus` from the controller module: the representative status for a
set of error statuses is simply the first one (`errStatuses[0]`). -/
def pickStatus (errStatuses : List Nat) : Option Nat := errStatuses.head?

/-- Modelled from the spec: `checkMethod` of
`src/steps/http/validate-request` (not under `src/`): fails with a
MethodNotAllowed-class error if the method is not one of
get/post/patch/delete. -/
def checkMethod (req : Request) : Except APIError Unit :=
  match req.method with
  | .other _ => .error { status := 405, title := some "Method not supported." }
  | _ => .ok ()

/-- Modelled from the spec: `checkBodyExistence` of
`src/steps/http/validate-request` (not under `src/`): fails with a
BadRequest-class error if a body is required by the method but absent, or
present but not allowed (post/patch require a body; get/delete forbid
one). -/
def checkBodyExistence (req : Request) : Except APIError Unit :=
  let requiresBody := req.method = .post ∨ req.method = .patch
  if req.hasBody = decide requiresBody then .ok ()
  else .error { status := 400, title := some "Request body expectation not met." }

/-- Modelled from the spec: which client media types are acceptable against
the server's supported list (`negotiate-content-type`, not under `src/`):
a supported type matches itself, and the generic JSON media type is also
acceptable when the JSON:API media type is supported (the controller's
special-casing of `application/json` relies on this). -/
def acceptable (supported : List String) (a : String) : Bool :=
  supported.contains a || (a == "application/json" && supported.contains jsonApiMediaType)

/-- Modelled from the spec: `negotiateContentType` (not under `src/`): return
the first mutually acceptable type from the client's ordered preference
list, or fail with a NotAcceptable-class error if no overlap exists. -/
def negotiateContentType (accepts : List String) (supported : List String) : Except APIError String :=
  match accepts.find? (acceptable supported) with
  | some ct => .ok ct
  | none => .error { status := 406, title := some "Not Acceptable" }

/-- The `404` thrown by `handle` when the requested type is not registered:
`new APIError(404, undefined, type + " is not a valid type.")`. -/
def unregisteredTypeError (type : String) : APIError :=
  { status := 404, title := some (type ++ " is not a valid type.") }

/-- The update a `do-get`/`do-post`/`do-patch`/`do-delete` step applies to
the response it was handed.  Modelled from the spec: the do-query steps (not
under `src/`) fill the response's primary/included/status and may record
errors directly; they do not touch the negotiated content type, the headers,
or the serialized body. -/
structure QueryUpdate where
  primary : Option Primary := none
  included : Option (List Resource) := none
  status : Option Nat := none
  errors : List APIError := []
deriving DecidableEq, Repr

/-- Apply a do-query step's update to a response (a `none` field means the
step left that response field alone). -/
def applyQueryUpdate (r : Response) (u : QueryUpdate) : Response :=
  { r with
    primary := match u.primary with | some p => some p | none => r.primary
    included := match u.included with | some i => some i | none => r.included
    status := match u.status with | some s => some s | none => r.status
    errors := r.errors ++ u.errors }

/-- The environment of externally supplied collaborators consumed by one run
of `APIController.handle`: the registry lookups and the settled outcomes of
each asynchronous step that is not itself code under `src/`. -/
structure Env where
  hasType : String → Bool
  validateContentTypeStep : POut Unit
  validateDocumentStep : POut Unit
  parsePrimaryStep : POut Primary
  validateResourcesStep : POut Unit
  beforeSave : Primary → POut Primary
  labelCfg : LabelCfg
  beforeDelete : Option Primary → POut Unit
  doQuery : Request → Response → POut QueryUpdate
  beforeRenderPrimary : Option Primary → POut (Option Primary)
  beforeRenderIncluded : Option (List Resource) → POut (Option (List Resource))

/-- Outcome of the `try` block of `handle`: the whole generator stalls on a
pending step, or the block completes with the response as mutated so far and
(if a step threw or rejected) the thrown value for the `catch` clause. -/
inductive TryOut where
  | pending
  | completed (r : Response) (thrown : Option Thrown)

/-- Sequence one awaited step inside the `try` block: a pending step stalls
the generator, a rejection completes the block exceptionally with the
response as mutated so far, and a resolution continues. -/
def TryOut.bindStep {α : Type} (p : POut α) (r : Response) (k : α → TryOut) : TryOut :=
  match p with
  | .pending => .pending
  | .rejected t => .completed r (some t)
  | .resolved v => k v

/-- Lines 136-156 of `handle`: if the primary resources are still undefined,
dispatch to the do-query step matching the method (the `switch` has no
default, so an unknown method falls through); otherwise skip the query
entirely. -/
def queryStage (req : Request) (env : Env) (r : Response) : TryOut :=
  if r.primary = none then
    match req.method with
    | .get | .post | .patch | .delete =>
      TryOut.bindStep (env.doQuery req r) r fun u =>
        .completed (applyQueryUpdate r u) none
    | .other _ => .completed r none
  else .completed r none

/-- Lines 118-134 of `handle`: for a delete request, build the deletion
target (a Collection for an id array, a single Resource for an id string,
`undefined` otherwise) and await the beforeDelete transform. -/
def deleteStage (req : Request) (env : Env) (r : Response) : TryOut :=
  if req.method = .delete then
    let toTransform : Option Primary :=
      match req.idOrIds with
      | .many ids => some (.coll (ids.map fun id => { type := req.type, id := some id }))
      | .one id => some (.res { type := req.type, id := some id })
      | _ => none
    TryOut.bindStep (env.beforeDelete toTransform) r fun _ =>
      queryStage req env r
  else queryStage req env r

/-- Lines 99-116 of `handle`: when an id-or-ids is present and labels are
allowed, resolve the label; store the result on the request; and when it is
null/undefined or an empty array, set the response's primary directly
(`mappedLabel ? new Collection() : null`). -/
def labelStage (req : Request) (env : Env) (r : Response) : TryOut :=
  if req.idOrIds.truthy && req.allowLabel then
    TryOut.bindStep (labelToIds req.type req.idOrIds env.labelCfg) r fun mapped =>
      let req' := { req with idOrIds := mapped }
      if mapped.isEmptyIsh then
        deleteStage req' env
          { r with primary := some (if mapped.truthy then .coll [] else .nullP) }
      else deleteStage req' env r
  else deleteStage req env r

/-- Lines 81-97 of `handle`: when the request carries a body, validate the
content type and document, parse the primary data, validate the parsed
resources (unless the request targets a relationship), and replace the
request's primary with the beforeSave-transformed result. -/
def bodyStage (req : Request) (env : Env) (r : Response) : TryOut :=
  if req.hasBody then
    TryOut.bindStep env.validateContentTypeStep r fun _ =>
    TryOut.bindStep env.validateDocumentStep r fun _ =>
    TryOut.bindStep env.parsePrimaryStep r fun parsed =>
    TryOut.bindStep (if req.aboutRelationship then .resolved () else env.validateResourcesStep) r fun _ =>
    TryOut.bindStep (env.beforeSave parsed) r fun transformed =>
      labelStage { req with primary := some transformed } env r
  else labelStage req env r

/-- The whole `try` block of `handle` (lines 57-156): method check, body
presence check, content negotiation, `Vary: Accept`, registered-type check,
then the body/label/delete/query stages. -/
def tryBlock (req : Request) (env : Env) (r : Response) : TryOut :=
  match checkMethod req with
  | .error e => .completed r (some (.one (.api e)))
  | .ok _ =>
    match checkBodyExistence req with
    | .error e => .completed r (some (.one (.api e)))
    | .ok _ =>
      match negotiateContentType req.accepts [jsonApiMediaType] with
      | .error e => .completed r (some (.one (.api e)))
      | .ok ct =>
        let r1 : Response :=
          { r with contentType := some ct, headers := { r.headers with vary := some "Accept" } }
        if env.hasType req.type then bodyStage req env r1
        else .completed r1 (some (.one (.api (unregisteredTypeError req.type))))

/-- The `catch` clause of `handle` (lines 163-177): normalize the thrown
value to an array of `APIError`s, keep the content type only if `application/
json` was negotiated (otherwise force the JSON:API media type), and append
the normalized errors to the response's error list. -/
def catchErrors (r : Response) : Option Thrown → Response
  | none => r
  | some t =>
    let apiErrors := t.toList.map APIError.fromError
    { r with
      contentType :=
        if r.contentType ≠ some "application/json" then some jsonApiMediaType
        else r.contentType
      errors := r.errors ++ apiErrors }

/-- The error branch of `handle` (lines 179-185): status from the first
error, body built from the error list alone. -/
def errorBranch (r : Response) : Response :=
  { r with
    status := pickStatus (r.errors.map fun v => v.status)
    body := some (.errorDoc r.errors) }

/-- The success tail of `handle` (lines 188-203): store the
beforeRender-transformed primary and included on the response, and build the
success body from them unless the status is a no-content 204. -/
def successTail (req : Request) (r2 : Response) (p : Option Primary)
    (i : Option (List Resource)) : Response :=
  if r2.status = some 204 then { r2 with primary := p, included := i }
  else { r2 with primary := p, included := i, body := some (.dataDoc p i req.uri) }

/-- `APIController.handle`: run the `try` block over a fresh `Response`,
merge any caught errors, and either finish on the error branch (first
error's status, body from the error list alone) or apply the beforeRender
transforms (whose failures are *outside* the try/catch and so reject the
returned promise) and build the success body unless the status is 204. -/
def handle (req : Request) (env : Env) : POut Response :=
  match tryBlock req env {} with
  | .pending => .pending
  | .completed r1 thrownOpt =>
    if (catchErrors r1 thrownOpt).errors.length ≠ 0 then
      .resolved (errorBranch (catchErrors r1 thrownOpt))
    else
      match env.beforeRenderPrimary (catchErrors r1 thrownOpt).primary with
      | .pending => .pending
      | .rejected t => .rejected t
      | .resolved p =>
        match env.beforeRenderIncluded (catchErrors r1 thrownOpt).included with
        | .pending => .pending
        | .rejected t => .rejected t
        | .resolved i =>
          .resolved (successTail req (catchErrors r1 thrownOpt) p i)

/-- The `toLowerCase()` call of `responseFromExternalError`, modelled as a
per-character lowering of the string. -/
def lowerString (s : String) : String := String.mk (s.data.map Char.toLower)

/-- `APIController.responseFromExternalError`: normalize the error(s) to
`APIError`s, set status from the first error and the body from the error
list, then negotiate a content type against the Accept header: keep the
result only if it is (case-insensitively) `application/json`, otherwise —
including when negotiation fails — use the JSON:API media type. -/
def responseFromExternalError (errors : Thrown) (requestAccepts : List String) : Response :=
  let errs := errors.toList.map APIError.fromError
  let base : Response :=
    { errors := errs
      status := pickStatus (errs.map fun v => v.status)
      body := some (.errorDoc errs) }
  match negotiateContentType requestAccepts [jsonApiMediaType] with
  | .ok ct =>
    { base with
      contentType :=
        if lowerString ct = "application/json" then some ct else some jsonApiMediaType }
  | .error _ => { base with contentType := some jsonApiMediaType }

/-! ## Concrete fixtures used by witnesses and counterexamples -/

/-- An adapter whose every operation returns the query it was handed;
instantiating the opaque result type `ρ` with `RQuery` lets witnesses observe
exactly which query the backend received. -/
def echoAdapter : AdapterInstance RQuery :=
  { find := some fun q => q
    create := some fun q => q
    update := some fun q => q
    delete := some fun q => q
    addToRelationship := some fun q => q
    removeFromRelationship := some fun q => q }

/-- The registry used in the repository's unit tests: default page size 2,
maximum page size 4. -/
def testRegistry : RQRegistry RQuery :=
  { pagination := fun _ => { defaultPageSize := some 2, maxPageSize := some 4 }
    dbAdapter := fun _ => some echoAdapter }

/-- A registry whose configured default page size (10) exceeds its maximum
page size (4). -/
def c4Registry : RQRegistry RQuery :=
  { pagination := fun _ => { defaultPageSize := some 10, maxPageSize := some 4 }
    dbAdapter := fun _ => some echoAdapter }

/-- A Find query on type schools with no requested limit. -/
def findSchools : RQuery := { kind := .find, type := "schools" }

/-- A Find query requesting limit 10. -/
def findSchools10 : RQuery :=
  { kind := .find, type := "schools", criteria := { limit := some 10 } }

/-- A Find query requesting limit 10 with the max-limit override set. -/
def findSchools10Ignore : RQuery := { findSchools10 with ignoreLimitMax := true }

/-- An environment in which every external collaborator succeeds trivially. -/
def resolvedEnv : Env :=
  { hasType := fun _ => true
    validateContentTypeStep := .resolved ()
    validateDocumentStep := .resolved ()
    parsePrimaryStep := .resolved .nullP
    validateResourcesStep := .resolved ()
    beforeSave := fun p => .resolved p
    labelCfg := {}
    beforeDelete := fun _ => .resolved ()
    doQuery := fun _ _ => .resolved {}
    beforeRenderPrimary := fun p => .resolved p
    beforeRenderIncluded := fun i => .resolved i }

/-- A label-mapper table whose mapper for the label `colleges` returns a
promise that *rejects*. -/
def rejectingMapperCfg : LabelCfg :=
  { adapterOk := true
    labelMappers := fun _ => some fun label =>
      if label = "colleges" then some (.result (.rejected (.one (.otherErr 3)))) else none }

/-- A label-mapper table whose mapper for the label `colleges` throws
synchronously. -/
def throwingMapperCfg : LabelCfg :=
  { adapterOk := true
    labelMappers := fun _ => some fun label =>
      if label = "colleges" then some (.syncThrow (.one (.otherErr 4))) else none }

/-- A GET request targeting the `colleges` label of type schools. -/
def collegesRequest : Request :=
  { method := .get, type := "schools", idOrIds := .one "colleges"
    allowLabel := true, accepts := [jsonApiMediaType] }

/-- A request whose method is not one of the supported four. -/
def c9Request : Request :=
  { method := .other "brew", type := "schools", accepts := [jsonApiMediaType] }

/-- The 405 error `checkMethod` produces for an unsupported method. -/
def methodErr405 : APIError := { status := 405, title := some "Method not supported." }

/-- The response `handle` produces for `c9Request` under `resolvedEnv`:
error body, JSON:API content type, and — because the `Vary` header is only
written *after* method validation succeeds — no `vary` header at all. -/
def c9ExpectedResponse : Response :=
  { contentType := some jsonApiMediaType
    headers := { vary := none }
    status := some 405
    errors := [methodErr405]
    body := some (.errorDoc [methodErr405]) }

/-- A label-mapper table whose mapper for the label `colleges` resolves with
the empty id list. -/
def emptyListMapperCfg : LabelCfg :=
  { adapterOk := true
    labelMappers := fun _ => some fun label =>
      if label = "colleges" then some (.result (.resolved (.many []))) else none }

/-- `resolvedEnv` with the empty-list label mapper installed. -/
def c5Env : Env := { resolvedEnv with labelCfg := emptyListMapperCfg }

/-- The response `tryBlock` produces for `collegesRequest` under `c5Env`:
negotiated content type, `Vary: Accept`, and the primary short-circuited to
an empty Collection, with no query dispatched. -/
def c5Response : Response :=
  { contentType := some jsonApiMediaType
    headers := { vary := some "Accept" }
    primary := some (.coll []) }

/-- The response state after the label short-circuit: negotiated content
type, `Vary: Accept`, and the primary set directly from the mapped label
(`mappedLabel ? new Collection() : null`), with nothing else touched. -/
def labelShortResponse (ct : String) (m : IdOrIds) : Response :=
  { contentType := some ct
    headers := { vary := some "Accept" }
    primary := some (if m.truthy then .coll [] else .nullP) }

/-- A plain bodyless GET request for a registered type. -/
def simpleGetRequest : Request :=
  { method := .get, type := "schools", accepts := [jsonApiMediaType] }

/-- The response `handle` produces for `simpleGetRequest` under
`resolvedEnv`: a success body built from the (trivial) primary and included,
no errors. -/
def successResponse : Response :=
  { contentType := some jsonApiMediaType
    headers := { vary := some "Accept" }
    errors := []
    body := some (.dataDoc none none none) }

/-- `resolvedEnv` with beforeRender transforms that never settle. -/
def pendingRenderEnv : Env :=
  { resolvedEnv with
    beforeRenderPrimary := fun _ => .pending
    beforeRenderIncluded := fun _ => .pending }

/-- A hook registry with no hook registered for any type. -/
def emptyHookRegistry : HookRegistry Unit Unit := { lookup := fun _ _ => none }

/-- A hook registry whose registered hook returns a rejected promise. -/
def rejectingHookRegistry : HookRegistry Unit Unit :=
  { lookup := fun _ _ => some fun _ _ _ => .returns (.rejected (.one (.otherErr 7))) }

/-- A resource of type schools. -/
def schoolsResource : Resource := { type := "schools", id := some "1" }

/-! ## Claim theorems -/

/-- Claim C2: For every criteria-carrying query run through `runQuery` with a
configured `maxPageSize` and a requested limit exceeding it: if
`ignoreLimitMax` is not set, `runQuery` fails with the
invalid-query-parameter error naming `page[limit]` — for every possible
adapter configuration, so the backend is never invoked; if the flag is set,
the query is dispatched unchanged and the backend receives that exact
query (hence that exact limit). -/
theorem claim_C2_max_limit_enforced {ρ : Type} (registry : RQRegistry ρ) (q : RQuery)
    (M L : Nat)
    (hwc : q.isWithCriteria = true)
    (hmax : (registry.pagination q.type).maxPageSize = some M)
    (hlim : q.criteria.limit = some L)
    (hgt : L > M) :
    (q.ignoreLimitMax = false →
      ∀ da : String → Option (AdapterInstance ρ), runQuery { registry with dbAdapter := da } q =
        .error (.apiError (invalidQueryParamValue "Must use a smaller limit per page." "page[limit]")))
    ∧ (q.ignoreLimitMax = true →
        ∀ (adapter : AdapterInstance ρ) (f : RQuery → ρ),
          registry.dbAdapter q.type = some adapter →
          adapter.methodFor q.kind = some f →
          runQuery registry q = .ok (f q)) := by
  constructor
  · intro hign da
    simp [runQuery, enforceMaxLimit, hwc, hign, hmax, hlim, hgt]
  · intro hign adapter f hada hmf
    simp [runQuery, enforceMaxLimit, finalizeQuery, applyDefaultLimit, RQuery.limit,
      hwc, hign, hmax, hlim, hada, dispatchQuery, hmf]

/-- Claim C2 witness: under the unit-test registry (max 4), a Find query with
limit 10 fails with the `page[limit]` error, and the same query with
`ignoreLimitMax` set is dispatched to the backend unchanged. -/
theorem claim_C2_max_limit_enforced_witness :
    runQuery testRegistry findSchools10 =
      .error (.apiError (invalidQueryParamValue "Must use a smaller limit per page." "page[limit]"))
    ∧ runQuery testRegistry findSchools10Ignore = .ok findSchools10Ignore := by
  have h1 := (claim_C2_max_limit_enforced testRegistry findSchools10 4 10 rfl rfl rfl
    (by norm_num)).1 rfl testRegistry.dbAdapter
  have h2 := (claim_C2_max_limit_enforced testRegistry findSchools10Ignore 4 10 rfl rfl rfl
    (by norm_num)).2 rfl echoAdapter (fun q => q) rfl rfl
  exact ⟨h1, h2⟩

/-- Claim C3: For every criteria-carrying query run through `runQuery` with no
requested limit and a configured `defaultPageSize`, the query dispatched to
the backend carries limit equal to `defaultPageSize`; when a limit was
requested (and enforcement passes) or no default is configured, the query is
dispatched with its limit unchanged. -/
theorem claim_C3_default_limit {ρ : Type} (registry : RQRegistry ρ) (q : RQuery)
    (adapter : AdapterInstance ρ) (f : RQuery → ρ)
    (hwc : q.isWithCriteria = true)
    (hada : registry.dbAdapter q.type = some adapter)
    (hmf : adapter.methodFor q.kind = some f) :
    (∀ D, q.criteria.limit = none → (registry.pagination q.type).defaultPageSize = some D →
      runQuery registry q = .ok (f (q.withLimit D)) ∧ (q.withLimit D).limit = some D)
    ∧ (q.criteria.limit = none → (registry.pagination q.type).defaultPageSize = none →
        runQuery registry q = .ok (f q))
    ∧ (∀ L, q.criteria.limit = some L → enforceMaxLimit registry q = .ok () →
        runQuery registry q = .ok (f q)) := by
  refine ⟨?_, ?_, ?_⟩
  · intro D hlim hdef
    constructor
    · simp [runQuery, enforceMaxLimit, finalizeQuery, applyDefaultLimit, RQuery.limit,
        RQuery.withLimit, hwc, hlim, hdef, hada, dispatchQuery, hmf]
    · simp [RQuery.withLimit, RQuery.limit]
  · intro hlim hdef
    simp [runQuery, enforceMaxLimit, finalizeQuery, applyDefaultLimit, RQuery.limit,
      hwc, hlim, hdef, hada, dispatchQuery, hmf]
  · intro L hlim henf
    simp [runQuery, finalizeQuery, applyDefaultLimit, RQuery.limit,
      hwc, hlim, henf, hada, dispatchQuery, hmf]

/-- Claim C3 witness: under the unit-test registry (default 2), a Find query with
no limit is dispatched carrying limit 2, and a Find query with limit 3 is
dispatched unchanged. -/
theorem claim_C3_default_limit_witness :
    runQuery testRegistry findSchools = .ok (findSchools.withLimit 2)
    ∧ (findSchools.withLimit 2).limit = some 2
    ∧ runQuery testRegistry { findSchools with criteria := { limit := some 3 } } =
        .ok { findSchools with criteria := { limit := some 3 } } := by
  have h1 := (claim_C3_default_limit testRegistry findSchools echoAdapter (fun q => q)
    rfl rfl rfl).1 2 rfl rfl
  have h3 := (claim_C3_default_limit testRegistry
    { findSchools with criteria := { limit := some 3 } } echoAdapter (fun q => q)
    rfl rfl rfl).2.2 3 rfl rfl
  exact ⟨h1.1, h1.2, h3⟩

/-- Claim C4 counterexample: the claim "a dispatched query's effective limit never
exceeds the configured maximum unless the override flag is set — including
when the effective limit comes from the configured defaultPageSize" is false:
under a registry with `defaultPageSize = 10` and `maxPageSize = 4`, a Find
query with no requested limit and no override flag is dispatched to the
backend carrying limit 10 > 4 (`enforceMaxLimit` runs before the default is
applied and never re-checks it). -/
theorem claim_C4_counterexample :
    findSchools.ignoreLimitMax = false
    ∧ (c4Registry.pagination findSchools.type).maxPageSize = some 4
    ∧ runQuery c4Registry findSchools = .ok (finalizeQuery c4Registry findSchools)
    ∧ (finalizeQuery c4Registry findSchools).limit = some 10
    ∧ 10 > 4 :=
  ⟨rfl, rfl, rfl, rfl, by norm_num⟩

/-- Claim C4 (amended): for every criteria-carrying query that `runQuery` dispatches
to a backend adapter without the override flag, the finalized query's limit
never exceeds the configured maximum **provided the configured
defaultPageSize does not itself exceed the maximum** — the requested limit is
enforced before dispatch, but a configured default is applied afterwards
without being checked. -/
theorem claim_C4_amended_limit_invariant {ρ : Type} (registry : RQRegistry ρ) (q : RQuery)
    (M : Nat) (r : ρ)
    (hwc : q.isWithCriteria = true)
    (hign : q.ignoreLimitMax = false)
    (hmax : (registry.pagination q.type).maxPageSize = some M)
    (hdef : ∀ D, (registry.pagination q.type).defaultPageSize = some D → D ≤ M)
    (hrun : runQuery registry q = .ok r) :
    ∀ L, (finalizeQuery registry q).limit = some L → L ≤ M := by
  intro L hL
  have henf : enforceMaxLimit registry q = .ok () := by
    cases h : enforceMaxLimit registry q with
    | error e =>
      rw [runQuery] at hrun
      simp [hwc, h] at hrun
    | ok u => rfl
  rcases hlim : q.criteria.limit with _ | l
  · -- no requested limit: the finalized limit can only come from the default
    rcases hd : (registry.pagination q.type).defaultPageSize with _ | d
    · simp [finalizeQuery, hwc, applyDefaultLimit, RQuery.limit, hlim, hd] at hL
    · simp [finalizeQuery, hwc, applyDefaultLimit, RQuery.limit, RQuery.withLimit,
        hlim, hd] at hL
      have := hdef d hd
      omega
  · -- a requested limit survived enforcement, so it is within the maximum
    have hle : l ≤ M := by
      by_contra hgt
      rw [enforceMaxLimit] at henf
      simp [hign, hmax, hlim, Nat.lt_of_not_le hgt] at henf
    simp [finalizeQuery, hwc, applyDefaultLimit, RQuery.limit, hlim] at hL
    omega

/-- Claim C4 (amended) witness: under the unit-test registry (default 2 ≤ max 4),
the Find query with no requested limit is dispatched with limit 2 ≤ 4. -/
theorem claim_C4_amended_limit_invariant_witness :
    (finalizeQuery testRegistry findSchools).limit = some 2 ∧ 2 ≤ 4 := by
  have h := claim_C4_amended_limit_invariant testRegistry findSchools 4
    (findSchools.withLimit 2) rfl rfl rfl
    (by intro D hD; simp [testRegistry] at hD; omega) rfl 2 rfl
  exact ⟨rfl, h⟩

/-- Claim C10: for every resource type with no hook registered under the given
name, `triggerHook` resolves to the empty array and never raises; when a
hook is registered, its returned value/promise is passed through
`Promise.resolve` unmodified (so its own rejection, or its own synchronous
throw, surfaces exactly as the hook produced it). -/
theorem claim_C10_trigger_hook {φ ψ : Type} (registry : HookRegistry φ ψ)
    (resource : Resource) (hook : String) (frameworkReq : φ) (frameworkRes : ψ) :
    (registry.lookup hook resource.type = none →
      triggerHook resource hook registry frameworkReq frameworkRes =
        .promise (.resolved (.arr [])))
    ∧ (∀ fn p, registry.lookup hook resource.type = some fn →
        fn resource frameworkReq frameworkRes = .returns p →
        triggerHook resource hook registry frameworkReq frameworkRes = .promise p)
    ∧ (∀ fn t, registry.lookup hook resource.type = some fn →
        fn resource frameworkReq frameworkRes = .throws t →
        triggerHook resource hook registry frameworkReq frameworkRes = .syncThrow t) := by
  refine ⟨?_, ?_, ?_⟩
  · intro h
    simp [triggerHook, h]
  · intro fn p h hfn
    simp [triggerHook, h, hfn]
  · intro fn t h hfn
    simp [triggerHook, h, hfn]

/-- Claim C10 witness: with no registered hook, the invoker resolves to the empty
array; with a hook whose promise rejects, the rejection passes through
unmodified. -/
theorem claim_C10_trigger_hook_witness :
    triggerHook schoolsResource "beforeSave" emptyHookRegistry () () =
      .promise (.resolved (.arr []))
    ∧ triggerHook schoolsResource "beforeSave" rejectingHookRegistry () () =
      .promise (.rejected (.one (.otherErr 7))) := by
  have h1 := (claim_C10_trigger_hook emptyHookRegistry schoolsResource "beforeSave" () ()).1 rfl
  have h2 := (claim_C10_trigger_hook rejectingHookRegistry schoolsResource "beforeSave" () ()).2.1
    (fun _ _ _ => .returns (.rejected (.one (.otherErr 7))))
    (.rejected (.one (.otherErr 7))) rfl rfl
  exact ⟨h1, h2⟩

/-- Claim C6: the claim that a label mapper's failure always propagates as a
rejection of the label-resolution step is false for mappers that return a
*rejected promise*: `label-to-ids.js` runs `Q(labelMapper(model,
frameworkReq)).then(resolve)` with no rejection handler, so the rejection is
swallowed and the step's promise stays pending forever — the orchestrator
never catches anything and `handle` itself never settles.  A mapper that
throws *synchronously* does reject the step (the `Q.Promise` executor
throws), as the claim describes. -/
theorem claim_C6_rejection_swallowed :
    labelToIds "schools" (.one "colleges") rejectingMapperCfg = .pending
    ∧ labelToIds "schools" (.one "colleges") throwingMapperCfg =
        .rejected (.one (.otherErr 4))
    ∧ handle collegesRequest { resolvedEnv with labelCfg := rejectingMapperCfg } = .pending :=
  ⟨rfl, rfl, rfl⟩

/-- Claim C9: the claim that every response's header map includes `Vary: Accept`
independent of the outcome of method validation is false: `handle` writes
`headers.vary` only *after* method validation, body-presence validation and
content negotiation all succeed, so the error response for an unsupported
method carries no `vary` header — and `responseFromExternalError` never sets
headers at all. -/
theorem claim_C9_vary_missing_on_early_failure :
    handle c9Request resolvedEnv = .resolved c9ExpectedResponse
    ∧ c9ExpectedResponse.headers.vary = none
    ∧ (responseFromExternalError (.one (.otherErr 0)) ["application/json"]).headers.vary = none :=
  ⟨rfl, rfl, rfl⟩

/-! ## Helper lemmas about the orchestrator's stages -/

/-- Inversion for `TryOut.bindStep`: a completed bind either came from a
rejection (completing exceptionally with the input response) or from a
resolution feeding the continuation. -/
theorem bindStep_completed {α : Type} {p : POut α} {r : Response} {k : α → TryOut}
    {r' : Response} {topt : Option Thrown}
    (h : TryOut.bindStep p r k = .completed r' topt) :
    (∃ t, p = .rejected t ∧ r' = r ∧ topt = some t)
    ∨ (∃ v, p = .resolved v ∧ k v = .completed r' topt) := by
  cases p with
  | pending => simp [TryOut.bindStep] at h
  | rejected t =>
    rw [TryOut.bindStep] at h
    injection h with h1 h2
    exact .inl ⟨t, rfl, h1.symm, h2.symm⟩
  | resolved v => exact .inr ⟨v, rfl, h⟩

/-- The query stage never touches the content type, headers or body of the
response. -/
theorem queryStage_frame {req : Request} {env : Env} {r r' : Response} {topt : Option Thrown}
    (h : queryStage req env r = .completed r' topt) :
    r'.contentType = r.contentType ∧ r'.headers = r.headers ∧ r'.body = r.body := by
  rw [queryStage] at h
  split at h
  · split at h <;>
      first
      | (rcases bindStep_completed h with ⟨t, _, hr, _⟩ | ⟨u, _, hk⟩
         · subst hr; exact ⟨rfl, rfl, rfl⟩
         · injection hk with h1 h2
           subst h1
           exact ⟨rfl, rfl, rfl⟩)
      | (injection h with h1 h2
         subst h1
         exact ⟨rfl, rfl, rfl⟩)
  · injection h with h1 h2
    subst h1
    exact ⟨rfl, rfl, rfl⟩

/-- The delete stage never touches the content type, headers or body of the
response. -/
theorem deleteStage_frame {req : Request} {env : Env} {r r' : Response} {topt : Option Thrown}
    (h : deleteStage req env r = .completed r' topt) :
    r'.contentType = r.contentType ∧ r'.headers = r.headers ∧ r'.body = r.body := by
  rw [deleteStage] at h
  split at h
  · rcases bindStep_completed h with ⟨t, _, hr, _⟩ | ⟨u, _, hk⟩
    · subst hr; exact ⟨rfl, rfl, rfl⟩
    · exact queryStage_frame hk
  · exact queryStage_frame h

/-- The label stage never touches the content type, headers or body of the
response. -/
theorem labelStage_frame {req : Request} {env : Env} {r r' : Response} {topt : Option Thrown}
    (h : labelStage req env r = .completed r' topt) :
    r'.contentType = r.contentType ∧ r'.headers = r.headers ∧ r'.body = r.body := by
  rw [labelStage] at h
  split at h
  · rcases bindStep_completed h with ⟨t, _, hr, _⟩ | ⟨m, _, hk⟩
    · subst hr; exact ⟨rfl, rfl, rfl⟩
    · simp only at hk
      split at hk
      · have hf := deleteStage_frame hk
        exact hf
      · exact deleteStage_frame hk
  · exact deleteStage_frame h

/-- The body stage never touches the content type, headers or body slot of
the response. -/
theorem bodyStage_frame {req : Request} {env : Env} {r r' : Response} {topt : Option Thrown}
    (h : bodyStage req env r = .completed r' topt) :
    r'.contentType = r.contentType ∧ r'.headers = r.headers ∧ r'.body = r.body := by
  rw [bodyStage] at h
  split at h
  · rcases bindStep_completed h with ⟨t, _, hr, _⟩ | ⟨u, _, h⟩
    · subst hr; exact ⟨rfl, rfl, rfl⟩
    · rcases bindStep_completed h with ⟨t, _, hr, _⟩ | ⟨u, _, h⟩
      · subst hr; exact ⟨rfl, rfl, rfl⟩
      · rcases bindStep_completed h with ⟨t, _, hr, _⟩ | ⟨parsed, _, h⟩
        · subst hr; exact ⟨rfl, rfl, rfl⟩
        · rcases bindStep_completed h with ⟨t, _, hr, _⟩ | ⟨u, _, h⟩
          · subst hr; exact ⟨rfl, rfl, rfl⟩
          · rcases bindStep_completed h with ⟨t, _, hr, _⟩ | ⟨tr, _, h⟩
            · subst hr; exact ⟨rfl, rfl, rfl⟩
            · exact labelStage_frame h
  · exact labelStage_frame h

/-- Characterization of a completed `tryBlock` over a fresh response: either
negotiation succeeded, fixing the content type and the `Vary: Accept`
header, or the block threw before negotiation, leaving content type, header
and error list untouched; in either case no body was built. -/
theorem tryBlock_spec {req : Request} {env : Env} {r' : Response} {topt : Option Thrown}
    (h : tryBlock req env {} = .completed r' topt) :
    ((∃ ct, negotiateContentType req.accepts [jsonApiMediaType] = .ok ct
        ∧ r'.contentType = some ct ∧ r'.headers.vary = some "Accept")
      ∨ (r'.contentType = none ∧ r'.headers.vary = none ∧ r'.errors = []
          ∧ ∃ t, topt = some t))
    ∧ r'.body = none := by
  rw [tryBlock] at h
  split at h
  · injection h with h1 h2
    subst h1
    exact ⟨.inr ⟨rfl, rfl, rfl, _, h2.symm⟩, rfl⟩
  · split at h
    · injection h with h1 h2
      subst h1
      exact ⟨.inr ⟨rfl, rfl, rfl, _, h2.symm⟩, rfl⟩
    · split at h
      · injection h with h1 h2
        subst h1
        exact ⟨.inr ⟨rfl, rfl, rfl, _, h2.symm⟩, rfl⟩
      · rename_i ct hng
        split at h
        · obtain ⟨h1, h2, h3⟩ := bodyStage_frame h
          refine ⟨.inl ⟨ct, hng, ?_, ?_⟩, ?_⟩
          · rw [h1]
          · rw [h2]
          · rw [h3]
        · injection h with h1 h2
          subst h1
          exact ⟨.inl ⟨ct, hng, rfl, rfl⟩, rfl⟩

/-- The catch clause touches only the content type and the error list. -/
theorem catchErrors_fields (r : Response) (topt : Option Thrown) :
    (catchErrors r topt).status = r.status ∧ (catchErrors r topt).body = r.body
    ∧ (catchErrors r topt).primary = r.primary
    ∧ (catchErrors r topt).included = r.included
    ∧ (catchErrors r topt).headers = r.headers := by
  cases topt <;> exact ⟨rfl, rfl, rfl, rfl, rfl⟩

/-- A completed catch with no thrown value leaves the response unchanged. -/
theorem catchErrors_none (r : Response) : catchErrors r none = r := rfl

/-- The success tail preserves the error list and the status of the
response. -/
theorem successTail_fields (req : Request) (r2 : Response) (p : Option Primary)
    (i : Option (List Resource)) :
    (successTail req r2 p i).errors = r2.errors
    ∧ (successTail req r2 p i).status = r2.status := by
  rw [successTail]
  split <;> exact ⟨rfl, rfl⟩

/-- The `try` block never consults the beforeRender environment fields. -/
theorem tryBlock_render_agnostic (req : Request) (env : Env)
    (f : Option Primary → POut (Option Primary))
    (g : Option (List Resource) → POut (Option (List Resource))) (r : Response) :
    tryBlock req { env with beforeRenderPrimary := f, beforeRenderIncluded := g } r =
      tryBlock req env r := by
  cases env
  rfl

/-- Inversion for a resolved `handle`: the try block completed, and the
response came either from the error branch (when the merged error list is
non-empty) or from the beforeRender transforms followed by the success
tail. -/
theorem handle_resolved_inv {req : Request} {env : Env} {r : Response}
    (h : handle req env = .resolved r) :
    ∃ r1 topt, tryBlock req env {} = .completed r1 topt
      ∧ (((catchErrors r1 topt).errors ≠ [] ∧ r = errorBranch (catchErrors r1 topt))
        ∨ ((catchErrors r1 topt).errors = [] ∧ ∃ p i,
            env.beforeRenderPrimary (catchErrors r1 topt).primary = .resolved p
            ∧ env.beforeRenderIncluded (catchErrors r1 topt).included = .resolved i
            ∧ r = successTail req (catchErrors r1 topt) p i)) := by
  rw [handle] at h
  split at h
  · exact absurd h (by simp)
  · rename_i r1 topt heq
    refine ⟨r1, topt, heq, ?_⟩
    split at h
    · rename_i he
      injection h with h1
      refine .inl ⟨?_, h1.symm⟩
      intro hnil
      exact he (by rw [hnil]; rfl)
    · rename_i he
      have hnil : (catchErrors r1 topt).errors = [] := by
        have := not_not.mp (fun hx => he hx)
        exact List.length_eq_zero.mp this
      split at h
      · exact absurd h (by simp)
      · exact absurd h (by simp)
      · rename_i p hbp
        split at h
        · exact absurd h (by simp)
        · exact absurd h (by simp)
        · rename_i i hbi
          injection h with h1
          exact .inr ⟨hnil, p, i, hbp, hbi, h1.symm⟩

/-- A successful negotiation against the server list containing only the
JSON:API media type yields either that type or the generic JSON type. -/
theorem negotiate_ok_cases {accepts : List String} {ct : String}
    (h : negotiateContentType accepts [jsonApiMediaType] = .ok ct) :
    ct = jsonApiMediaType ∨ ct = "application/json" := by
  rw [negotiateContentType] at h
  rcases hf : accepts.find? (acceptable [jsonApiMediaType]) with _ | a
  · rw [hf] at h
    exact absurd h (by simp)
  · rw [hf] at h
    injection h with h1
    subst h1
    have hacc := List.find?_some hf
    rw [acceptable] at hacc
    simp [jsonApiMediaType] at hacc
    rcases hacc with h1 | h1
    · exact .inl h1
    · exact .inr h1

/-- Field characterization of `responseFromExternalError`: error list from
normalization, status from the first error, and a content type that is the
JSON:API media type unless negotiation chose (case-insensitively) the
generic JSON type. -/
theorem rfee_spec (t : Thrown) (accepts : List String) :
    (responseFromExternalError t accepts).errors = t.toList.map APIError.fromError
    ∧ (responseFromExternalError t accepts).status =
        pickStatus ((t.toList.map APIError.fromError).map fun v => v.status)
    ∧ ((responseFromExternalError t accepts).contentType = some jsonApiMediaType
      ∨ ∃ ct, negotiateContentType accepts [jsonApiMediaType] = .ok ct
          ∧ lowerString ct = "application/json"
          ∧ (responseFromExternalError t accepts).contentType = some ct) := by
  rcases hn : negotiateContentType accepts [jsonApiMediaType] with e | ct
  · refine ⟨?_, ?_, .inl ?_⟩ <;> simp [responseFromExternalError, hn]
  · by_cases hl : lowerString ct = "application/json"
    · refine ⟨?_, ?_, .inr ⟨ct, ?_, hl, ?_⟩⟩ <;> simp [responseFromExternalError, hn, hl]
    · refine ⟨?_, ?_, .inl ?_⟩ <;> simp [responseFromExternalError, hn, hl]

/-- Binding a resolved step just runs the continuation. -/
theorem bindStep_resolved {α : Type} (v : α) (r : Response) (k : α → TryOut) :
    TryOut.bindStep (.resolved v) r k = k v := rfl

/-- When the response's primary is already populated, the delete and query
stages complete without dispatching any query (provided beforeDelete
resolves). -/
theorem deleteStage_no_query (req : Request) (env : Env) (r : Response)
    (hdel : ∀ tt, env.beforeDelete tt = .resolved ())
    (hp : ¬ r.primary = none) :
    deleteStage req env r = .completed r none := by
  rw [deleteStage]
  by_cases hm : req.method = .delete
  · rw [if_pos hm]
    simp only [hdel, bindStep_resolved]
    rw [queryStage, if_neg hp]
  · rw [if_neg hm, queryStage, if_neg hp]

/-- When label resolution resolves to an empty-ish value, the label stage
sets the response's primary directly and the delete/query stages leave it
untouched, dispatching nothing. -/
theorem labelStage_shortcut (req : Request) (env : Env) (r : Response) (m : IdOrIds)
    (htr : req.idOrIds.truthy = true) (hal : req.allowLabel = true)
    (hmap : labelToIds req.type req.idOrIds env.labelCfg = .resolved m)
    (hempty : m.isEmptyIsh = true)
    (hdel : ∀ tt, env.beforeDelete tt = .resolved ()) :
    labelStage req env r =
      .completed { r with primary := some (if m.truthy then .coll [] else .nullP) } none := by
  simp only [labelStage, htr, hal, Bool.and_self, if_true, hmap, bindStep_resolved, hempty]
  exact deleteStage_no_query _ env _ hdel (by simp)

/-- The body stage under succeeding body steps reduces to the label
shortcut. -/
theorem bodyStage_shortcut (req : Request) (env : Env) (r : Response) (m : IdOrIds)
    (hbody : req.hasBody = true →
      env.validateContentTypeStep = .resolved () ∧ env.validateDocumentStep = .resolved ()
        ∧ env.validateResourcesStep = .resolved ()
        ∧ ∃ parsed tr, env.parsePrimaryStep = .resolved parsed
            ∧ env.beforeSave parsed = .resolved tr)
    (htr : req.idOrIds.truthy = true) (hal : req.allowLabel = true)
    (hmap : labelToIds req.type req.idOrIds env.labelCfg = .resolved m)
    (hempty : m.isEmptyIsh = true)
    (hdel : ∀ tt, env.beforeDelete tt = .resolved ()) :
    bodyStage req env r =
      .completed { r with primary := some (if m.truthy then .coll [] else .nullP) } none := by
  cases hhb : req.hasBody with
  | false =>
    simp only [bodyStage, hhb, Bool.false_eq_true, if_false]
    exact labelStage_shortcut req env r m htr hal hmap hempty hdel
  | true =>
    obtain ⟨h1, h2, h3, parsed, tr, h4, h5⟩ := hbody hhb
    cases hab : req.aboutRelationship with
    | true =>
      simp only [bodyStage, hhb, if_true, h1, h2, h4, bindStep_resolved, hab, h5]
      exact labelStage_shortcut _ env r m htr hal hmap hempty hdel
    | false =>
      simp only [bodyStage, hhb, if_true, h1, h2, h4, bindStep_resolved, hab,
        Bool.false_eq_true, if_false, h3, h5]
      exact labelStage_shortcut _ env r m htr hal hmap hempty hdel

/-- Full label short-circuit through the try block: under succeeding
validation, negotiation and body steps, a label that resolves to an
empty-ish value completes the try block with the primary set directly and no
thrown value — no query stage is consulted. -/
theorem tryBlock_label_shortcut (req : Request) (env : Env) (ct : String) (m : IdOrIds)
    (hcm : checkMethod req = .ok ())
    (hcb : checkBodyExistence req = .ok ())
    (hng : negotiateContentType req.accepts [jsonApiMediaType] = .ok ct)
    (hht : env.hasType req.type = true)
    (hbody : req.hasBody = true →
      env.validateContentTypeStep = .resolved () ∧ env.validateDocumentStep = .resolved ()
        ∧ env.validateResourcesStep = .resolved ()
        ∧ ∃ parsed tr, env.parsePrimaryStep = .resolved parsed
            ∧ env.beforeSave parsed = .resolved tr)
    (hdel : ∀ tt, env.beforeDelete tt = .resolved ())
    (htr : req.idOrIds.truthy = true) (hal : req.allowLabel = true)
    (hmap : labelToIds req.type req.idOrIds env.labelCfg = .resolved m)
    (hempty : m.isEmptyIsh = true) :
    tryBlock req env {} = .completed (labelShortResponse ct m) none := by
  simp only [tryBlock, hcm, hcb, hng, hht, if_true]
  have h := bodyStage_shortcut req env
    { contentType := some ct, headers := { vary := some "Accept" } } m
    hbody htr hal hmap hempty hdel
  exact h

/-- Claim C1: every completed response has errors XOR a non-error success body: a
response with errors has its body built from the error list alone and its
value is unchanged under arbitrary replacement of the beforeRender
transforms (they are skipped); a response without errors has a success body
built from the transformed primary/included unless its status is 204, in
which case no body is set. -/
theorem claim_C1_errors_xor_success_body (req : Request) (env : Env) (r : Response)
    (h : handle req env = .resolved r) :
    (r.errors ≠ [] →
      r.body = some (.errorDoc r.errors)
      ∧ ∀ f g, handle req { env with beforeRenderPrimary := f, beforeRenderIncluded := g } =
          .resolved r)
    ∧ (r.errors = [] →
      (r.status ≠ some 204 → ∃ p i, r.body = some (.dataDoc p i req.uri))
      ∧ (r.status = some 204 → r.body = none)) := by
  obtain ⟨r1, topt, htb, hcase⟩ := handle_resolved_inv h
  constructor
  · intro hne
    rcases hcase with ⟨hne2, hr⟩ | ⟨hnil, p, i, hbp, hbi, hr⟩
    · subst hr
      refine ⟨rfl, ?_⟩
      intro f g
      have htb' : tryBlock req
          { env with beforeRenderPrimary := f, beforeRenderIncluded := g } {} =
          .completed r1 topt := by
        rw [tryBlock_render_agnostic]
        exact htb
      have hlen : (catchErrors r1 topt).errors.length ≠ 0 := by
        intro h0
        exact hne2 (List.length_eq_zero.mp h0)
      simp only [handle, htb']
      rw [if_pos hlen]
    · exfalso
      apply hne
      rw [hr]
      have := (successTail_fields req (catchErrors r1 topt) p i).1
      rw [this]
      exact hnil
  · intro hnilr
    rcases hcase with ⟨hne2, hr⟩ | ⟨hnil, p, i, hbp, hbi, hr⟩
    · exfalso
      apply hne2
      rw [hr] at hnilr
      exact hnilr
    · subst hr
      constructor
      · intro hs
        by_cases h204 : (catchErrors r1 topt).status = some 204
        · exact absurd ((successTail_fields req (catchErrors r1 topt) p i).2.trans h204) hs
        · refine ⟨p, i, ?_⟩
          rw [successTail, if_neg h204]
      · intro hs
        by_cases h204 : (catchErrors r1 topt).status = some 204
        · rw [successTail, if_pos h204]
          show (catchErrors r1 topt).body = none
          rw [(catchErrors_fields r1 topt).2.1]
          exact (tryBlock_spec htb).2
        · exfalso
          apply h204
          have := (successTail_fields req (catchErrors r1 topt) p i).2
          rw [← this]
          exact hs

/-- Claim C1 witness: the unsupported-method request yields an error response
whose body is built from its error list, unchanged when the beforeRender
transforms are replaced by ones that never settle; the plain GET yields an
error-free response. -/
theorem claim_C1_errors_xor_success_body_witness :
    (c9ExpectedResponse.errors ≠ []
      ∧ c9ExpectedResponse.body = some (.errorDoc c9ExpectedResponse.errors)
      ∧ handle c9Request pendingRenderEnv = .resolved c9ExpectedResponse)
    ∧ (successResponse.errors = []
      ∧ (successResponse.status = some 204 → successResponse.body = none)) := by
  have h1 := (claim_C1_errors_xor_success_body c9Request resolvedEnv c9ExpectedResponse rfl).1
    (by decide)
  have h2 := (claim_C1_errors_xor_success_body simpleGetRequest resolvedEnv successResponse rfl).2
    rfl
  exact ⟨⟨by decide, h1.1, h1.2 (fun _ => .pending) (fun _ => .pending)⟩, ⟨rfl, h2.2⟩⟩

/-- Claim C8: whenever the aggregated error list is non-empty, the response's
status is the first error's status (no aggregate is computed), both in
`handle` and in `responseFromExternalError`. -/
theorem claim_C8_first_error_status (req : Request) (env : Env) (r : Response)
    (t : Thrown) (accepts : List String) :
    (∀ e rest, handle req env = .resolved r → r.errors = e :: rest →
      r.status = some e.status)
    ∧ (∀ e rest, (responseFromExternalError t accepts).errors = e :: rest →
        (responseFromExternalError t accepts).status = some e.status) := by
  constructor
  · intro e rest h herr
    obtain ⟨r1, topt, htb, hcase⟩ := handle_resolved_inv h
    rcases hcase with ⟨hne2, hr⟩ | ⟨hnil, p, i, hbp, hbi, hr⟩
    · subst hr
      have herr' : (catchErrors r1 topt).errors = e :: rest := herr
      show pickStatus ((catchErrors r1 topt).errors.map fun v => v.status) = some e.status
      rw [herr']
      simp [pickStatus]
    · exfalso
      have hz : r.errors = [] := by
        rw [hr]
        have := (successTail_fields req (catchErrors r1 topt) p i).1
        rw [this]
        exact hnil
      rw [herr] at hz
      exact absurd hz (by simp)
  · intro e rest herr
    have hs := (rfee_spec t accepts).2.1
    have he := (rfee_spec t accepts).1
    have hmap := he.symm.trans herr
    rw [hs, hmap]
    simp [pickStatus]

/-- Claim C8 witness: the 405 error response's status is the first (only) error's
status, and an external error response built from a two-error array takes
the first error's status. -/
theorem claim_C8_first_error_status_witness :
    c9ExpectedResponse.status = some 405
    ∧ (responseFromExternalError
        (.many [.api methodErr405, .api { status := 500 }]) []).status = some 405 := by
  have h := claim_C8_first_error_status c9Request resolvedEnv c9ExpectedResponse
    (.many [.api methodErr405, .api { status := 500 }]) []
  exact ⟨h.1 methodErr405 [] rfl rfl, h.2 methodErr405 [{ status := 500 }] rfl⟩

/-- Claim C7: whenever a response carries errors its content type is the JSON:API
media type unless content negotiation chose the generic JSON type, which is
kept; and `responseFromExternalError` yields `application/json` for an
Accept list consisting of that type, and the JSON:API media type when the
Accept list has no acceptable overlap. -/
theorem claim_C7_error_content_type (req : Request) (env : Env) (r : Response)
    (t : Thrown) (accepts : List String) :
    (handle req env = .resolved r → r.errors ≠ [] →
      (r.contentType = some jsonApiMediaType
        ∨ (r.contentType = some "application/json"
            ∧ negotiateContentType req.accepts [jsonApiMediaType] = .ok "application/json")))
    ∧ ((∀ a ∈ accepts, a ≠ jsonApiMediaType ∧ a ≠ "application/json") →
        (responseFromExternalError t accepts).contentType = some jsonApiMediaType)
    ∧ (responseFromExternalError t ["application/json"]).contentType =
        some "application/json" := by
  refine ⟨?_, ?_, ?_⟩
  · intro h hne
    obtain ⟨r1, topt, htb, hcase⟩ := handle_resolved_inv h
    rcases hcase with ⟨hne2, hr⟩ | ⟨hnil, p, i, hbp, hbi, hr⟩
    · subst hr
      cases topt with
      | none =>
        rcases (tryBlock_spec htb).1 with ⟨ct, hng, hct, _⟩ | ⟨_, _, _, t', ht'⟩
        · rcases negotiate_ok_cases hng with hvnd | hjson
          · left
            show (catchErrors r1 none).contentType = some jsonApiMediaType
            rw [catchErrors_none, hct, hvnd]
          · right
            constructor
            · show (catchErrors r1 none).contentType = some "application/json"
              rw [catchErrors_none, hct, hjson]
            · rw [← hjson]
              exact hng
        · exact Option.noConfusion ht'
      | some t' =>
        by_cases hc : r1.contentType ≠ some "application/json"
        · left
          show (catchErrors r1 (some t')).contentType = some jsonApiMediaType
          simp only [catchErrors]
          rw [if_pos hc]
        · have hc' := not_not.mp hc
          right
          have hkeep : (catchErrors r1 (some t')).contentType = r1.contentType := by
            simp only [catchErrors]
            rw [if_neg hc]
          constructor
          · show (catchErrors r1 (some t')).contentType = some "application/json"
            rw [hkeep, hc']
          · rcases (tryBlock_spec htb).1 with ⟨ct, hng, hct, _⟩ | ⟨hnone, _, _, _⟩
            · rw [hct] at hc'
              injection hc' with hcj
              rw [hcj] at hng
              exact hng
            · rw [hnone] at hc'
              exact Option.noConfusion hc'
    · exfalso
      apply hne
      rw [hr]
      have := (successTail_fields req (catchErrors r1 topt) p i).1
      rw [this]
      exact hnil
  · intro hno
    have hfind : accepts.find? (acceptable [jsonApiMediaType]) = none := by
      rw [List.find?_eq_none]
      intro a ha
      obtain ⟨h1, h2⟩ := hno a ha
      have h1' : a ≠ "application/vnd.api+json" := h1
      simp [acceptable, jsonApiMediaType, h1', h2]
    have hn : negotiateContentType accepts [jsonApiMediaType] =
        .error { status := 406, title := some "Not Acceptable" } := by
      rw [negotiateContentType, hfind]
    simp [responseFromExternalError, hn]
  · rfl

/-- Claim C7 witness: the 405 error response's content type satisfies the
disjunction; an Accept list with no overlap yields the JSON:API media type;
an Accept list of exactly `application/json` yields `application/json`. -/
theorem claim_C7_error_content_type_witness :
    (c9ExpectedResponse.contentType = some jsonApiMediaType
      ∨ (c9ExpectedResponse.contentType = some "application/json"
          ∧ negotiateContentType c9Request.accepts [jsonApiMediaType] =
              .ok "application/json"))
    ∧ (responseFromExternalError (.one (.otherErr 0)) ["text/html"]).contentType =
        some jsonApiMediaType
    ∧ (responseFromExternalError (.one (.otherErr 0)) ["application/json"]).contentType =
        some "application/json" := by
  have h := claim_C7_error_content_type c9Request resolvedEnv c9ExpectedResponse
    (.one (.otherErr 0)) ["text/html"]
  exact ⟨h.1 rfl (by decide), h.2.1 (by decide), h.2.2⟩

/-- Claim C5: for every request whose label resolution yields null, undefined or
an empty list, the try block completes with the response's primary set
directly — null for a null/undefined resolution, an empty Collection for an
empty-list resolution — and `handle`'s result is unchanged under arbitrary
replacement of the query-dispatch step (no query is dispatched to the
backend). -/
theorem claim_C5_label_short_circuit (req : Request) (env : Env) (ct : String) (m : IdOrIds)
    (hcm : checkMethod req = .ok ())
    (hcb : checkBodyExistence req = .ok ())
    (hng : negotiateContentType req.accepts [jsonApiMediaType] = .ok ct)
    (hht : env.hasType req.type = true)
    (hbody : req.hasBody = true →
      env.validateContentTypeStep = .resolved () ∧ env.validateDocumentStep = .resolved ()
        ∧ env.validateResourcesStep = .resolved ()
        ∧ ∃ parsed tr, env.parsePrimaryStep = .resolved parsed
            ∧ env.beforeSave parsed = .resolved tr)
    (hdel : ∀ tt, env.beforeDelete tt = .resolved ())
    (htr : req.idOrIds.truthy = true) (hal : req.allowLabel = true)
    (hmap : labelToIds req.type req.idOrIds env.labelCfg = .resolved m)
    (hempty : m.isEmptyIsh = true) :
    tryBlock req env {} = .completed (labelShortResponse ct m) none
    ∧ ((m = .null ∨ m = .undef) → (labelShortResponse ct m).primary = some .nullP)
    ∧ (m = .many [] → (labelShortResponse ct m).primary = some (.coll []))
    ∧ ∀ dq, handle req { env with doQuery := dq } = handle req env := by
  refine ⟨tryBlock_label_shortcut req env ct m hcm hcb hng hht hbody hdel htr hal hmap hempty,
    ?_, ?_, ?_⟩
  · rintro (hm | hm) <;> subst hm <;> rfl
  · rintro hm
    subst hm
    rfl
  · intro dq
    have h1 := tryBlock_label_shortcut req env ct m hcm hcb hng hht hbody hdel htr hal
      hmap hempty
    have h2 := tryBlock_label_shortcut req { env with doQuery := dq } ct m hcm hcb hng hht
      hbody hdel htr hal hmap hempty
    simp only [handle, h1, h2]

/-- Claim C5 witness: a GET for the `colleges` label whose mapper resolves with
the empty list short-circuits with an empty Collection as primary, and the
handle result is identical when the query-dispatch step is replaced by one
that never settles. -/
theorem claim_C5_label_short_circuit_witness :
    tryBlock collegesRequest c5Env {} = .completed c5Response none
    ∧ c5Response.primary = some (.coll [])
    ∧ handle collegesRequest { c5Env with doQuery := fun _ _ => .pending } =
        handle collegesRequest c5Env := by
  obtain ⟨h1, h2, h3, h4⟩ := claim_C5_label_short_circuit collegesRequest c5Env
    jsonApiMediaType (.many []) rfl rfl rfl rfl
    (fun hb => absurd hb (by decide)) (fun tt => rfl) rfl rfl rfl rfl
  exact ⟨h1, h3 rfl, h4 _⟩

end JsonApi
